import Mathlib

/-!
Verification of the `containers` orchestration library (Go).

Shallow embedding of the code under verification:
  * `network.go` — the subnet allocator (`NetworksAllocator`, `NewNetworkAllocator`,
    `GetFreeSubnet`, `getUsedNetworks`);
  * `container.go` — the container lifecycle controller (`BaseContainer.Stop`,
    `StartContainer`'s startup race, `wait`, `ready`, `setupDebug`).

Go machine values are modelled as follows: an IPv4 network (`net.IPNet`) becomes a
base address (`Nat` below `2^32`) together with a mask prefix length; the Go map
`used map[string]int`, keyed by the CIDR string `"a.b.c.d/plen"` (injective in the
base/prefix pair for in-range octets), becomes an association list keyed by the
`IPNet` structure, with first-match lookup and cons-as-overwrite insertion; Go
errors built by `errors.Wrap` / `errors.Ctx().Str(...).Just(...)` become an
inductive `GoError` tree.
-/

namespace Containers

/-- An IPv4 network as carried by Go's `net.IPNet`: the address bytes (encoded
big-endian into one `Nat`) and the mask prefix length from `Mask.Size()`. -/
structure IPNet where
  ip : Nat
  plen : Nat
  deriving DecidableEq, Repr

/-- Dotted-quad constructor, mirroring `net.IPv4(a, b, c, d)`. -/
def ipv4 (a b c d : Nat) : Nat :=
  ((a * 256 + b) * 256 + c) * 256 + d

/-- Number of addresses covered by the mask: `2^(32-plen)`. -/
def IPNet.size (x : IPNet) : Nat := 2 ^ (32 - x.plen)

/-- First address of the network range (host bits of `ip` masked off). -/
def IPNet.lo (x : IPNet) : Nat := x.ip / x.size * x.size

/-- The networks viewed as address ranges `[lo, lo+size)` intersect. -/
def IPNet.overlaps (x y : IPNet) : Bool :=
  decide (x.lo < y.lo + y.size) && decide (y.lo < x.lo + x.size)

/-- `net.ParseCIDR` returns the network with host bits zeroed; this is that
canonicalisation on our representation. -/
def maskNet (x : IPNet) : IPNet := ⟨x.lo, x.plen⟩

/-- A well-formed IPv4 CIDR: address below `2^32`, prefix length at most 32
(guaranteed in Go by `net.ParseCIDR` / byte-valued octets). -/
def IPNet.valid (x : IPNet) : Prop := x.ip < 2 ^ 32 ∧ x.plen ≤ 32

instance (x : IPNet) : Decidable x.valid := by
  unfold IPNet.valid; infer_instance

/-- The allocator's `used map[string]int`: CIDR-string key, prefix-length value.
Association list with first-match lookup; insertion conses, which matches Go map
overwrite semantics under first-match lookup. -/
abbrev UsedMap := List (IPNet × Nat)

/-- Go `na.used[k]` read (comma-ok form). -/
def lookupU : UsedMap → IPNet → Option Nat
  | [], _ => none
  | (k, v) :: rest, q => if k = q then some v else lookupU rest q

/-- Go `na.used[k] = v` write. -/
def insertU (k : IPNet) (v : Nat) (m : UsedMap) : UsedMap := (k, v) :: m

/-- `getUsedNetworks` loop: every network returned by `client.NetworkList` is
recorded under its CIDR string with its mask size. -/
def refreshU (m : UsedMap) : List IPNet → UsedMap
  | [] => m
  | c :: rest => refreshU (insertU c c.plen m) rest

/-- The `/16` zone probed by the outer loop of `GetFreeSubnet`:
`net.IPNet{IP: 172.ni.0.0, Mask: 255.255.0.0}`. -/
def zoneNet (ni : Nat) : IPNet := ⟨ipv4 172 ni 0 0, 16⟩

/-- The `/24` candidate probed by the inner loop of `GetFreeSubnet`:
`net.IPNet{IP: 172.ni.si.0, Mask: 255.255.255.0}`. -/
def subnetNet (ni si : Nat) : IPNet := ⟨ipv4 172 ni si 0, 24⟩

/-- The zone-skip test of `GetFreeSubnet`:
`if sz, ok := na.used[global.String()]; !ok || sz != 16` — the zone is scanned
unless it is present with recorded size 16. -/
def zoneBlocked (m : UsedMap) (ni : Nat) : Bool :=
  match lookupU m (zoneNet ni) with
  | some sz => sz == 16
  | none => false

/-- Inner loop of `GetFreeSubnet`: `for si := 0; si < 255; si++`, returning the
first `/24` absent from the used map. -/
def scanSubnets (m : UsedMap) (ni : Nat) : Option IPNet :=
  ((List.range 255).find? (fun si => (lookupU m (subnetNet ni si)).isNone)).map
    (fun si => subnetNet ni si)

/-- Outer loop of `GetFreeSubnet` over the zone second octets. -/
def scanZones (m : UsedMap) : List Nat → Option IPNet
  | [] => none
  | ni :: rest =>
    if zoneBlocked m ni then scanZones m rest
    else
      match scanSubnets m ni with
      | some s => some s
      | none => scanZones m rest

/-- The supernet stored in the allocator at construction:
`IP: 172.16.0.0, Mask: 255.240.0.0` (a `/12`). -/
def allocatorAddr : IPNet := ⟨ipv4 172 16 0 0, 12⟩

/-- The zone octets visited by the outer loop:
`for ni := int(addr.IP[1]); ni < int(addr.IP[1]) + max; ni++` where
`max, _ = addr.Mask.Size() = 12` and `addr.IP[1] = 16` — so 16..27. -/
def zoneOctets : List Nat := List.range' 16 12

/-- Go errors as built by the `errors` helper package. -/
inductive GoError where
  | const (msg : String)
  | wrap (msg : String) (cause : GoError)
  | withCtx (fields : List (String × String)) (cause : GoError)
  deriving DecidableEq, Repr

/-- `GetFreeSubnet`: refresh the used table from the engine (propagating a
client failure as a wrapped error), then scan zones and reserve the first free
`/24` before returning it.  `clientList` is the outcome of
`client.NetworkList(ctx)`. -/
def GetFreeSubnet (m : UsedMap) :
    Except GoError (List IPNet) → Except GoError (Option IPNet) × UsedMap
  | .error e => (.error (.wrap "get used networks" (.wrap "get client networks list" e)), m)
  | .ok list =>
    match scanZones (refreshU m list) zoneOctets with
    | some s => (.ok (some s), insertU s 24 (refreshU m list))
    | none => (.ok none, refreshU m list)

/-- The reserved-networks loop of `NewNetworkAllocator`: each parsed range is
stored, canonicalised by `ParseCIDR`, under its CIDR string with its mask
size. -/
def seedReserved (m : UsedMap) : List IPNet → UsedMap
  | [] => m
  | r :: rest => seedReserved (insertU (maskNet r) r.plen m) rest

/-- `NewNetworkAllocator`: fresh allocator whose used table is seeded from the
parsed reserved-networks environment list (`RESERVED_NETWORKS`). -/
def NewNetworkAllocator (reserved : List IPNet) : UsedMap :=
  seedReserved [] reserved

/-- A run of successive `GetFreeSubnet` calls on one allocator instance, each
call seeing one `NetworkList` outcome; collects the successfully returned
subnets in order. -/
def allocRun (m : UsedMap) : List (Except GoError (List IPNet)) → List IPNet × UsedMap
  | [] => ([], m)
  | cl :: rest =>
    match GetFreeSubnet m cl with
    | (.ok (some s), m1) => (s :: (allocRun m1 rest).1, (allocRun m1 rest).2)
    | (_, m1) => allocRun m1 rest

/-! ### Used-map lemmas -/

theorem lookupU_insert_self (m : UsedMap) (k : IPNet) (v : Nat) :
    lookupU (insertU k v m) k = some v := by
  simp [insertU, lookupU]

theorem lookupU_insert_isSome (m : UsedMap) (k q : IPNet) (v : Nat)
    (h : (lookupU m q).isSome) : (lookupU (insertU k v m) q).isSome := by
  simp only [insertU, lookupU]
  split <;> simp [h]

theorem lookupU_refreshU_isSome (list : List IPNet) (m : UsedMap) (q : IPNet)
    (h : (lookupU m q).isSome) : (lookupU (refreshU m list) q).isSome := by
  induction list generalizing m with
  | nil => exact h
  | cons c rest ih => exact ih _ (lookupU_insert_isSome _ _ _ _ h)

theorem lookupU_seedReserved_isSome (list : List IPNet) (m : UsedMap) (q : IPNet)
    (h : (lookupU m q).isSome) : (lookupU (seedReserved m list) q).isSome := by
  induction list generalizing m with
  | nil => exact h
  | cons c rest ih => exact ih _ (lookupU_insert_isSome _ _ _ _ h)

theorem seedReserved_mem (list : List IPNet) (m : UsedMap) (r : IPNet) (hr : r ∈ list) :
    (lookupU (seedReserved m list) (maskNet r)).isSome := by
  induction list generalizing m with
  | nil => cases hr
  | cons c rest ih =>
    rcases List.mem_cons.mp hr with h | h
    · subst h
      exact lookupU_seedReserved_isSome rest _ _
        (by rw [lookupU_insert_self]; rfl)
    · exact ih _ h

/-- Every value stored in the used table equals the prefix length of its key —
true of every insertion the code performs (`used[x.String()] = x.Mask.Size()`). -/
def WellValued (m : UsedMap) : Prop := ∀ kv ∈ m, kv.2 = kv.1.plen

theorem wellValued_nil : WellValued [] := by intro kv h; cases h

theorem wellValued_insert (m : UsedMap) (k : IPNet) (v : Nat)
    (hm : WellValued m) (hv : v = k.plen) : WellValued (insertU k v m) := by
  intro kv h
  rcases List.mem_cons.mp h with h | h
  · subst h; exact hv
  · exact hm kv h

theorem wellValued_refreshU (list : List IPNet) (m : UsedMap) (hm : WellValued m) :
    WellValued (refreshU m list) := by
  induction list generalizing m with
  | nil => exact hm
  | cons c rest ih => exact ih _ (wellValued_insert _ _ _ hm rfl)

theorem wellValued_seedReserved (list : List IPNet) (m : UsedMap) (hm : WellValued m) :
    WellValued (seedReserved m list) := by
  induction list generalizing m with
  | nil => exact hm
  | cons c rest ih => exact ih _ (wellValued_insert _ _ _ hm rfl)

theorem wellValued_newNetworkAllocator (reserved : List IPNet) :
    WellValued (NewNetworkAllocator reserved) :=
  wellValued_seedReserved _ _ wellValued_nil

theorem lookupU_wellValued (m : UsedMap) (hm : WellValued m) (q : IPNet) (v : Nat)
    (h : lookupU m q = some v) : v = q.plen := by
  induction m with
  | nil => cases h
  | cons kv rest ih =>
    rcases kv with ⟨k, w⟩
    by_cases hk : k = q
    · subst hk
      simp only [lookupU, if_pos rfl] at h
      injection h with h2
      rw [← h2]
      exact hm (k, w) (List.mem_cons_self _ _)
    · simp only [lookupU, if_neg hk] at h
      exact ih (fun kv hkv => hm kv (List.mem_cons_of_mem _ hkv)) h

/-- Under `WellValued`, a zone is blocked exactly when its key is present:
the stored size is then necessarily 16. -/
theorem zoneBlocked_eq_isSome (m : UsedMap) (hm : WellValued m) (ni : Nat) :
    zoneBlocked m ni = (lookupU m (zoneNet ni)).isSome := by
  unfold zoneBlocked
  cases h : lookupU m (zoneNet ni) with
  | none => rfl
  | some sz =>
    have := lookupU_wellValued m hm _ _ h
    simp [this, zoneNet]

/-! ### Scan characterisation and completeness -/

theorem scanSubnets_some (m : UsedMap) (ni : Nat) (s : IPNet)
    (h : scanSubnets m ni = some s) :
    ∃ si, si < 255 ∧ s = subnetNet ni si ∧ lookupU m (subnetNet ni si) = none := by
  unfold scanSubnets at h
  rcases Option.map_eq_some'.mp h with ⟨si, hfind, hs⟩
  refine ⟨si, ?_, hs.symm, ?_⟩
  · exact List.mem_range.mp (List.mem_of_find?_eq_some hfind)
  · have := List.find?_some hfind
    exact Option.isNone_iff_eq_none.mp (by simpa using this)

theorem scanSubnets_isSome (m : UsedMap) (ni si : Nat) (hsi : si < 255)
    (hfree : lookupU m (subnetNet ni si) = none) :
    (scanSubnets m ni).isSome := by
  unfold scanSubnets
  cases hfind : (List.range 255).find? (fun si => (lookupU m (subnetNet ni si)).isNone) with
  | some s0 => rfl
  | none =>
    exfalso
    have hsome : ((List.range 255).find?
        (fun si => (lookupU m (subnetNet ni si)).isNone)).isSome := by
      rw [List.find?_isSome]
      exact ⟨si, List.mem_range.mpr hsi, by simp [hfree]⟩
    rw [hfind] at hsome
    cases hsome

theorem scanZones_some (m : UsedMap) (zones : List Nat) (s : IPNet)
    (h : scanZones m zones = some s) :
    ∃ ni, ni ∈ zones ∧ zoneBlocked m ni = false ∧
      ∃ si, si < 255 ∧ s = subnetNet ni si ∧ lookupU m s = none := by
  induction zones with
  | nil => cases h
  | cons ni rest ih =>
    unfold scanZones at h
    by_cases hb : zoneBlocked m ni
    · rw [if_pos hb] at h
      rcases ih h with ⟨nj, hmem, hrest⟩
      exact ⟨nj, List.mem_cons_of_mem _ hmem, hrest⟩
    · rw [if_neg hb] at h
      cases hscan : scanSubnets m ni with
      | some s0 =>
        rw [hscan] at h
        injection h with h1
        subst h1
        rcases scanSubnets_some m ni s0 hscan with ⟨si, hsi, hs, hfree⟩
        exact ⟨ni, List.mem_cons_self _ _, Bool.eq_false_iff.mpr hb,
          si, hsi, hs, hs ▸ hfree⟩
      | none =>
        rw [hscan] at h
        rcases ih h with ⟨nj, hmem, hrest⟩
        exact ⟨nj, List.mem_cons_of_mem _ hmem, hrest⟩

theorem scanZones_isSome (m : UsedMap) (zones : List Nat) (ni si : Nat)
    (hmem : ni ∈ zones) (hz : zoneBlocked m ni = false) (hsi : si < 255)
    (hfree : lookupU m (subnetNet ni si) = none) :
    (scanZones m zones).isSome := by
  induction zones with
  | nil => cases hmem
  | cons nj rest ih =>
    unfold scanZones
    by_cases hb : zoneBlocked m nj
    · rw [if_pos hb]
      rcases List.mem_cons.mp hmem with h | h
      · rw [← h] at hb; rw [hz] at hb; cases hb
      · exact ih h
    · rw [if_neg hb]
      cases hscan : scanSubnets m nj with
      | some s0 => rfl
      | none =>
        rcases List.mem_cons.mp hmem with h | h
        · rw [← h] at hscan
          have hsome := scanSubnets_isSome m ni si hsi hfree
          rw [hscan] at hsome
          cases hsome
        · exact ih h

/-! ### Overlap arithmetic -/

theorem subnetNet_ip (ni si : Nat) :
    (subnetNet ni si).ip = ((172 * 256 + ni) * 256 + si) * 256 := by
  simp [subnetNet, ipv4]

theorem subnetNet_lo (ni si : Nat) : (subnetNet ni si).lo = (subnetNet ni si).ip := by
  have h : (subnetNet ni si).size = 256 := by
    simp [IPNet.size, subnetNet]
  rw [IPNet.lo, h, subnetNet_ip]
  omega

theorem subnetNet_aligned (ni si : Nat) : (subnetNet ni si).ip % 256 = 0 := by
  rw [subnetNet_ip]; omega

/-- Two `/24` networks whose addresses are 256-aligned overlap only if they are
the same network. -/
theorem overlaps_aligned24 (x y : IPNet) (hx : x.plen = 24) (hy : y.plen = 24)
    (hax : x.ip % 256 = 0) (hay : y.ip % 256 = 0) (hne : x ≠ y) :
    x.overlaps y = false := by
  rw [Bool.eq_false_iff]
  intro hov
  apply hne
  have hsx : x.size = 256 := by simp [IPNet.size, hx]
  have hsy : y.size = 256 := by simp [IPNet.size, hy]
  have hlx : x.lo = x.ip := by rw [IPNet.lo, hsx]; omega
  have hly : y.lo = y.ip := by rw [IPNet.lo, hsy]; omega
  simp only [IPNet.overlaps, Bool.and_eq_true, decide_eq_true_iff, hsx, hsy, hlx, hly] at hov
  have : x.ip = y.ip := by omega
  cases x; cases y
  simp only at this hx hy
  simp [this, hx, hy]

/-- A scanned `/24` candidate overlaps a canonicalised `/16` range only if that
range is exactly the candidate's zone. -/
theorem overlaps_24_16 (ni si : Nat) (hsi : si < 255) (r : IPNet) (hp : r.plen = 16)
    (h : (subnetNet ni si).overlaps r = true) : maskNet r = zoneNet ni := by
  have hss : (subnetNet ni si).size = 256 := by simp [IPNet.size, subnetNet]
  have hsr : r.size = 65536 := by simp [IPNet.size, hp]
  have hlo : (subnetNet ni si).lo = (172 * 256 + ni) * 65536 + si * 256 := by
    rw [subnetNet_lo, subnetNet_ip]; ring
  have hlor : r.lo = r.ip / 65536 * 65536 := by rw [IPNet.lo, hsr]
  simp only [IPNet.overlaps, Bool.and_eq_true, decide_eq_true_iff, hss, hsr, hlo, hlor] at h
  have hB : r.ip / 65536 = 172 * 256 + ni := by omega
  simp only [maskNet, zoneNet, IPNet.mk.injEq]
  refine ⟨?_, hp⟩
  rw [hlor, hB]
  unfold ipv4
  ring

/-- A scanned `/24` candidate overlaps a canonicalised `/24` range only if that
range is the candidate itself. -/
theorem overlaps_24_24 (ni si : Nat) (r : IPNet) (hp : r.plen = 24)
    (h : (subnetNet ni si).overlaps r = true) : maskNet r = subnetNet ni si := by
  have hss : (subnetNet ni si).size = 256 := by simp [IPNet.size, subnetNet]
  have hsr : r.size = 256 := by simp [IPNet.size, hp]
  have hlo := subnetNet_lo ni si
  have hip := subnetNet_ip ni si
  have hlor : r.lo = r.ip / 256 * 256 := by rw [IPNet.lo, hsr]
  simp only [IPNet.overlaps, Bool.and_eq_true, decide_eq_true_iff, hss, hsr, hlo, hlor, hip] at h
  have hq : r.ip / 256 * 256 = ((172 * 256 + ni) * 256 + si) * 256 := by omega
  simp only [maskNet, subnetNet, IPNet.mk.injEq]
  refine ⟨?_, hp⟩
  rw [hlor, hq]
  unfold ipv4
  ring

theorem lo_maskNet (r : IPNet) : (maskNet r).lo = r.lo := by
  have hs : 0 < r.size := Nat.pos_pow_of_pos _ (by norm_num)
  show r.lo / (maskNet r).size * (maskNet r).size = r.lo
  have : (maskNet r).size = r.size := rfl
  rw [this, IPNet.lo, Nat.mul_div_cancel _ hs]

theorem overlaps_maskNet (x r : IPNet) : x.overlaps (maskNet r) = x.overlaps r := by
  have h1 : (maskNet r).size = r.size := rfl
  simp only [IPNet.overlaps, lo_maskNet, h1]

theorem overlaps_comm (x y : IPNet) : x.overlaps y = y.overlaps x := by
  simp only [IPNet.overlaps]
  exact Bool.and_comm _ _

/-! ### GetFreeSubnet characterisation -/

theorem GetFreeSubnet_ok_some (m : UsedMap) (cl : List IPNet) (s : IPNet) (m' : UsedMap)
    (h : GetFreeSubnet m (.ok cl) = (.ok (some s), m')) :
    ∃ ni si, 16 ≤ ni ∧ ni < 28 ∧ si < 255 ∧ s = subnetNet ni si ∧
      zoneBlocked (refreshU m cl) ni = false ∧
      lookupU (refreshU m cl) s = none ∧
      m' = insertU s 24 (refreshU m cl) := by
  simp only [GetFreeSubnet] at h
  cases hscan : scanZones (refreshU m cl) zoneOctets with
  | none => rw [hscan] at h; cases h
  | some s0 =>
    rw [hscan] at h
    injection h with h1 h2
    injection h1 with h1
    injection h1 with h1
    subst h1
    rcases scanZones_some _ _ _ hscan with ⟨ni, hmem, hz, si, hsi, hs, hfree⟩
    have hzr : 16 ≤ ni ∧ ni < 28 := by simpa [zoneOctets] using hmem
    exact ⟨ni, si, hzr.1, hzr.2, hsi, hs, hz, hfree, h2.symm⟩

theorem GetFreeSubnet_mono (m : UsedMap) (cl : Except GoError (List IPNet)) (q : IPNet)
    (h : (lookupU m q).isSome) : (lookupU (GetFreeSubnet m cl).2 q).isSome := by
  cases cl with
  | error e => exact h
  | ok list =>
    simp only [GetFreeSubnet]
    cases hscan : scanZones (refreshU m list) zoneOctets with
    | none => exact lookupU_refreshU_isSome _ _ _ h
    | some s0 =>
      exact lookupU_insert_isSome _ _ _ _ (lookupU_refreshU_isSome _ _ _ h)

theorem GetFreeSubnet_wellValued (m : UsedMap) (cl : Except GoError (List IPNet))
    (hm : WellValued m) : WellValued (GetFreeSubnet m cl).2 := by
  cases cl with
  | error e => exact hm
  | ok list =>
    simp only [GetFreeSubnet]
    cases hscan : scanZones (refreshU m list) zoneOctets with
    | none => exact wellValued_refreshU _ _ hm
    | some s0 =>
      apply wellValued_insert _ _ _ (wellValued_refreshU _ _ hm)
      rcases scanZones_some _ _ _ hscan with ⟨ni, _, _, si, _, hs, _⟩
      rw [hs]
      rfl

/-- The produced subnet (if any) of one call, and the state after it. -/
theorem allocRun_cons (m : UsedMap) (cl : Except GoError (List IPNet))
    (rest : List (Except GoError (List IPNet))) :
    allocRun m (cl :: rest) =
      match GetFreeSubnet m cl with
      | (.ok (some s), m1) => (s :: (allocRun m1 rest).1, (allocRun m1 rest).2)
      | (_, m1) => allocRun m1 rest := rfl

/-- Case split for one run step: either the call produced a subnet with its
characterised shape, or the output is the tail's output over the stepped map. -/
theorem allocRun_cons_cases (m : UsedMap) (cl : Except GoError (List IPNet))
    (rest : List (Except GoError (List IPNet))) :
    (∃ s m1, GetFreeSubnet m cl = (.ok (some s), m1) ∧
      allocRun m (cl :: rest) = (s :: (allocRun m1 rest).1, (allocRun m1 rest).2)) ∨
    (allocRun m (cl :: rest) = allocRun (GetFreeSubnet m cl).2 rest ∧
      ∀ s m1, GetFreeSubnet m cl ≠ (.ok (some s), m1)) := by
  rcases hstep : GetFreeSubnet m cl with ⟨res, m1⟩
  cases res with
  | error e =>
    right
    constructor
    · rw [allocRun_cons, hstep]
    · intro s m2 hq; simp at hq
  | ok ro =>
    cases ro with
    | none =>
      right
      constructor
      · rw [allocRun_cons, hstep]
      · intro s m2 hq; simp at hq
    | some s0 =>
      left
      exact ⟨s0, m1, rfl, by rw [allocRun_cons, hstep]⟩

/-- No subnet produced later in a run overlaps a 256-aligned `/24` key already
present in the used table: keys are never deleted, and every produced subnet
was absent from the table at its own step. -/
theorem allocRun_avoids (cls : List (Except GoError (List IPNet))) :
    ∀ (m : UsedMap) (k : IPNet), (lookupU m k).isSome → k.plen = 24 → k.ip % 256 = 0 →
    ∀ s ∈ (allocRun m cls).1, s.overlaps k = false := by
  induction cls with
  | nil => intro m k _ _ _ s hs; cases hs
  | cons cl rest ih =>
    intro m k hk hp ha s hs
    have hk1 : (lookupU (GetFreeSubnet m cl).2 k).isSome := GetFreeSubnet_mono m cl k hk
    rcases allocRun_cons_cases m cl rest with ⟨s0, m1, hstep, heq⟩ | ⟨heq, _⟩
    · rw [heq] at hs
      have hm1 : (GetFreeSubnet m cl).2 = m1 := by rw [hstep]
      rcases List.mem_cons.mp hs with hs | hs
      · subst hs
        cases cl with
        | error e => rw [GetFreeSubnet] at hstep; cases hstep
        | ok list =>
          rcases GetFreeSubnet_ok_some m list s m1 hstep with
            ⟨ni, si, _, _, _, hs0, _, hfree, _⟩
          apply overlaps_aligned24 s k (by rw [hs0]; rfl) hp
            (by rw [hs0]; exact subnetNet_aligned ni si) ha
          intro hEq
          rw [hEq] at hfree
          have hpre : (lookupU (refreshU m list) k).isSome :=
            lookupU_refreshU_isSome _ _ _ hk
          rw [hfree] at hpre
          cases hpre
      · rw [hm1] at hk1
        exact ih m1 k hk1 hp ha s hs
    · rw [heq] at hs
      exact ih _ k hk1 hp ha s hs

/-- Subnets produced by one run are pairwise non-overlapping. -/
theorem allocRun_pairwise (cls : List (Except GoError (List IPNet))) :
    ∀ (m : UsedMap),
    List.Pairwise (fun x y => IPNet.overlaps x y = false) (allocRun m cls).1 := by
  induction cls with
  | nil => intro m; exact List.Pairwise.nil
  | cons cl rest ih =>
    intro m
    rcases allocRun_cons_cases m cl rest with ⟨s0, m1, hstep, heq⟩ | ⟨heq, _⟩
    · rw [heq]
      refine List.Pairwise.cons ?_ (ih m1)
      intro t ht
      cases cl with
      | error e => rw [GetFreeSubnet] at hstep; cases hstep
      | ok list =>
        rcases GetFreeSubnet_ok_some m list s0 m1 hstep with
          ⟨ni, si, _, _, _, hs0, _, _, hm1⟩
        rw [overlaps_comm]
        apply allocRun_avoids rest m1 s0 _ (by rw [hs0]; rfl)
          (by rw [hs0]; exact subnetNet_aligned ni si) t ht
        rw [hm1, lookupU_insert_self]
        rfl
    · rw [heq]
      exact ih _

/-- Subnets produced by one run never overlap a `/16` or `/24` range whose
canonical key is already present in a well-valued used table. -/
theorem allocRun_avoids_reserved (cls : List (Except GoError (List IPNet))) :
    ∀ (m : UsedMap) (r : IPNet), WellValued m → (lookupU m (maskNet r)).isSome →
    (r.plen = 16 ∨ r.plen = 24) →
    ∀ s ∈ (allocRun m cls).1, s.overlaps r = false := by
  induction cls with
  | nil => intro m r _ _ _ s hs; cases hs
  | cons cl rest ih =>
    intro m r hwv hk hp s hs
    have hk1 : (lookupU (GetFreeSubnet m cl).2 (maskNet r)).isSome :=
      GetFreeSubnet_mono m cl (maskNet r) hk
    have hwv1 : WellValued (GetFreeSubnet m cl).2 := GetFreeSubnet_wellValued m cl hwv
    rcases allocRun_cons_cases m cl rest with ⟨s0, m1, hstep, heq⟩ | ⟨heq, _⟩
    · rw [heq] at hs
      have hm1 : (GetFreeSubnet m cl).2 = m1 := by rw [hstep]
      rcases List.mem_cons.mp hs with hs | hs
      · subst hs
        cases cl with
        | error e => rw [GetFreeSubnet] at hstep; cases hstep
        | ok list =>
          rcases GetFreeSubnet_ok_some m list s m1 hstep with
            ⟨ni, si, _, _, hsi, hs0, hzb, hfree, _⟩
          rw [Bool.eq_false_iff]
          intro hov
          rcases hp with hp | hp
          · -- reserved /16: overlap pins the zone, but the zone was not blocked
            have hmz : maskNet r = zoneNet ni := by
              apply overlaps_24_16 ni si hsi r hp
              rw [← hs0]; exact hov
            have hzs : (lookupU (refreshU m list) (zoneNet ni)).isSome := by
              rw [← hmz]
              exact lookupU_refreshU_isSome _ _ _ hk
            rw [zoneBlocked_eq_isSome _ (wellValued_refreshU _ _ hwv) ni] at hzb
            rw [hzs] at hzb
            cases hzb
          · -- reserved /24: overlap pins the subnet, but the subnet was free
            have hmz : maskNet r = s := by
              rw [hs0]
              apply overlaps_24_24 ni si r hp
              rw [← hs0]; exact hov
            have hzs : (lookupU (refreshU m list) s).isSome := by
              rw [← hmz]
              exact lookupU_refreshU_isSome _ _ _ hk
            rw [hfree] at hzs
            cases hzs
      · rw [hm1] at hk1 hwv1
        exact ih m1 r hwv1 hk1 hp s hs
    · rw [heq] at hs
      exact ih _ r hwv1 hk1 hp s hs
/-! ### Claim theorems for the subnet allocator -/

/-- C1 (counterexample): with the reserved range `172.16.0.0/20` — a prefix
length that is neither 24 nor 16 — supplied at construction, the very first
successful `GetFreeSubnet` call returns `172.16.0.0/24`, which overlaps the
reserved range.  The claim that no returned subnet overlaps any reserved
range, including ranges whose prefix length is not /24 or /16, is false. -/
theorem C1_counterexample :
    (GetFreeSubnet (NewNetworkAllocator [{ ip := ipv4 172 16 0 0, plen := 20 }])
        (.ok [])).1 = .ok (some { ip := ipv4 172 16 0 0, plen := 24 }) ∧
    IPNet.overlaps { ip := ipv4 172 16 0 0, plen := 24 }
        { ip := ipv4 172 16 0 0, plen := 20 } = true :=
  ⟨rfl, by decide⟩

/-- C1 (amended): for every sequence of `GetFreeSubnet` calls on one allocator
instance, with any reserved list supplied at construction, the successfully
returned subnets are pairwise non-overlapping, and none overlaps any reserved
range whose prefix length is 16 or 24 — even alongside reserved ranges of
other prefix lengths, which are themselves not honoured. -/
theorem C1_allocations_disjoint (reserved : List IPNet)
    (cls : List (Except GoError (List IPNet))) :
    List.Pairwise (fun x y => IPNet.overlaps x y = false)
      (allocRun (NewNetworkAllocator reserved) cls).1 ∧
    ∀ s ∈ (allocRun (NewNetworkAllocator reserved) cls).1,
      ∀ r ∈ reserved, r.plen = 16 ∨ r.plen = 24 → IPNet.overlaps s r = false := by
  constructor
  · exact allocRun_pairwise cls _
  · intro s hs r hr hp
    exact allocRun_avoids_reserved cls _ r (wellValued_newNetworkAllocator reserved)
      (seedReserved_mem reserved [] r hr) hp s hs

/-- C1 (witness): the amended theorem applied to the mixed reserved list
`[172.16.0.0/20, 172.20.0.0/16]` and a two-call run, with the per-range part
instantiated at the first returned subnet (`172.16.0.0/24`) and the `/16`
reserved range. -/
theorem C1_witness :
    List.Pairwise (fun x y => IPNet.overlaps x y = false)
      (allocRun (NewNetworkAllocator
        [{ ip := ipv4 172 16 0 0, plen := 20 }, { ip := ipv4 172 20 0 0, plen := 16 }])
        [.ok [], .ok []]).1 ∧
    IPNet.overlaps { ip := ipv4 172 16 0 0, plen := 24 }
      { ip := ipv4 172 20 0 0, plen := 16 } = false :=
  ⟨(C1_allocations_disjoint
      [{ ip := ipv4 172 16 0 0, plen := 20 }, { ip := ipv4 172 20 0 0, plen := 16 }]
      [.ok [], .ok []]).1,
   (C1_allocations_disjoint
      [{ ip := ipv4 172 16 0 0, plen := 20 }, { ip := ipv4 172 20 0 0, plen := 16 }]
      [.ok [], .ok []]).2
    { ip := ipv4 172 16 0 0, plen := 24 } (by decide)
    { ip := ipv4 172 20 0 0, plen := 16 } (by decide) (by decide)⟩

/-- C5 (counterexample): when the twelve zones `172.16/16 .. 172.27/16` are all
recorded as fully reserved, `GetFreeSubnet` returns no subnet and no error even
though `172.28.0.0/24` lies inside the supernet `172.16.0.0/12` and is absent
from the used table — the scan never reaches the last four `/16` zones of the
supernet, because the loop bound adds the supernet prefix length 12 instead of
the zone count 16. -/
theorem C5_counterexample :
    (GetFreeSubnet ((List.range' 16 12).map (fun ni => (zoneNet ni, 16)))
        (.ok [])).1 = .ok none ∧
    lookupU ((List.range' 16 12).map (fun ni => (zoneNet ni, 16)))
        (subnetNet 28 0) = none ∧
    allocatorAddr.lo ≤ (subnetNet 28 0).lo ∧
    (subnetNet 28 0).lo + (subnetNet 28 0).size ≤ allocatorAddr.lo + allocatorAddr.size :=
  ⟨rfl, rfl, by decide, by decide⟩

/-- C5 (amended): `GetFreeSubnet` scans the `/16` zones `172.16 .. 172.27` (as
many zones as the supernet prefix length, 12 — not the full 16 zones of the
`/12`) in ascending order, skipping a zone only if it is recorded with prefix
length 16; whenever some `/24` with third octet at most 254 in a non-skipped
scanned zone is absent from the used table, the call returns a subnet, and
every returned subnet is such a `/24`. -/
theorem C5_scan_complete (m : UsedMap) (cl : List IPNet) (ni si : Nat)
    (h16 : 16 ≤ ni) (h28 : ni < 28) (hsi : si < 255)
    (hz : zoneBlocked (refreshU m cl) ni = false)
    (hfree : lookupU (refreshU m cl) (subnetNet ni si) = none) :
    (∃ s, (GetFreeSubnet m (.ok cl)).1 = .ok (some s)) ∧
    ∀ s, (GetFreeSubnet m (.ok cl)).1 = .ok (some s) →
      ∃ nj sj, 16 ≤ nj ∧ nj < 28 ∧ sj < 255 ∧ s = subnetNet nj sj := by
  have hmem : ni ∈ zoneOctets := by
    simp only [zoneOctets, List.mem_range'_1]
    omega
  have hsome := scanZones_isSome (refreshU m cl) zoneOctets ni si hmem hz hsi hfree
  constructor
  · cases hscan : scanZones (refreshU m cl) zoneOctets with
    | none => rw [hscan] at hsome; cases hsome
    | some s =>
      refine ⟨s, ?_⟩
      simp only [GetFreeSubnet]
      rw [hscan]
  · intro t ht
    rcases hq : GetFreeSubnet m (.ok cl) with ⟨r1, m1⟩
    rw [hq] at ht
    subst ht
    rcases GetFreeSubnet_ok_some m cl t m1 hq with ⟨nj, sj, hj1, hj2, hj3, hj4, _, _, _⟩
    exact ⟨nj, sj, hj1, hj2, hj3, hj4⟩

/-- C5 (witness): the amended theorem applied to the empty used table, with the
free candidate `172.16.0.0/24`. -/
theorem C5_witness :
    (∃ s, (GetFreeSubnet [] (.ok [])).1 = .ok (some s)) ∧
    ∀ s, (GetFreeSubnet [] (.ok [])).1 = .ok (some s) →
      ∃ nj sj, 16 ≤ nj ∧ nj < 28 ∧ sj < 255 ∧ s = subnetNet nj sj :=
  C5_scan_complete [] [] 16 0 (by decide) (by decide) (by decide) (by decide) (by decide)

/-- C6: on a fully free supernet (empty used table, no reserved ranges, empty
engine network list) the first `GetFreeSubnet` call returns `172.16.0.0/24`;
every returned subnet is recorded in the used table before the call returns,
so a second successful call on the same allocator never returns the same
subnet. -/
theorem C6_first_allocation_no_repeat :
    (GetFreeSubnet [] (.ok [])).1 = .ok (some { ip := ipv4 172 16 0 0, plen := 24 }) ∧
    ∀ (m : UsedMap) (cl1 cl2 : Except GoError (List IPNet)) (s1 s2 : IPNet)
      (m1 m2 : UsedMap),
      GetFreeSubnet m cl1 = (.ok (some s1), m1) →
      GetFreeSubnet m1 cl2 = (.ok (some s2), m2) →
      lookupU m1 s1 = some 24 ∧ s1 ≠ s2 := by
  constructor
  · rfl
  · intro m cl1 cl2 s1 s2 m1 m2 h1 h2
    cases cl1 with
    | error e => simp [GetFreeSubnet] at h1
    | ok list1 =>
      rcases GetFreeSubnet_ok_some m list1 s1 m1 h1 with ⟨_, _, _, _, _, _, _, _, hm1⟩
      have hself : lookupU m1 s1 = some 24 := by
        rw [hm1]; exact lookupU_insert_self _ _ _
      refine ⟨hself, ?_⟩
      intro hEq
      cases cl2 with
      | error e => simp [GetFreeSubnet] at h2
      | ok list2 =>
        rcases GetFreeSubnet_ok_some m1 list2 s2 m2 h2 with
          ⟨_, _, _, _, _, _, _, hfree2, _⟩
        have hs1 : (lookupU (refreshU m1 list2) s1).isSome :=
          lookupU_refreshU_isSome _ _ _ (by rw [hself]; rfl)
        rw [hEq, hfree2] at hs1
        cases hs1

/-- C6 (witness): the no-repeat part applied to two concrete successive calls
on an initially empty allocator. -/
theorem C6_witness :
    lookupU [({ ip := ipv4 172 16 0 0, plen := 24 }, 24)]
        { ip := ipv4 172 16 0 0, plen := 24 } = some 24 ∧
    ({ ip := ipv4 172 16 0 0, plen := 24 } : IPNet) ≠
      { ip := ipv4 172 16 1 0, plen := 24 } :=
  C6_first_allocation_no_repeat.2 [] (.ok []) (.ok [])
    { ip := ipv4 172 16 0 0, plen := 24 } { ip := ipv4 172 16 1 0, plen := 24 }
    [({ ip := ipv4 172 16 0 0, plen := 24 }, 24)]
    [({ ip := ipv4 172 16 1 0, plen := 24 }, 24), ({ ip := ipv4 172 16 0 0, plen := 24 }, 24)]
    rfl rfl

/-! ## Container lifecycle controller (`container.go`, `port.go`) -/

/-- `PortBinding` from `port.go`. -/
structure PortBinding where
  hostIP : String
  hostPort : String
  deriving DecidableEq, Repr

/-- `PortBind` from `port.go`: symbolic name, container port+protocol, host
port (`ports.PortName` is modelled as `String`, `uint16` as `Nat`). -/
structure PortBind where
  name : String
  container : String
  host : Nat
  deriving DecidableEq, Repr

/-- `splitProtoPort` from `port.go`. -/
def splitProtoPort (rawPort : String) : String × String :=
  let parts := rawPort.splitOn "/"
  let l := parts.length
  if rawPort.length = 0 ∨ l = 0 ∨ (parts.headD "").length = 0 then ("", "")
  else if l = 1 then ("tcp", rawPort)
  else if (parts.getD 1 "").length = 0 then ("tcp", parts.headD "")
  else (parts.getD 1 "", parts.headD "")

/-- `Port.Port()` from `port.go`: the numeric part of `"80/tcp"`. -/
def portOf (p : String) : String := (splitProtoPort p).2

/-- String-keyed Go map (`AddrsMap`, `portnames`): association list with
first-match lookup and cons-as-overwrite insertion. -/
abbrev StrMap := List (String × String)

def lookupStr : StrMap → String → Option String
  | [], _ => none
  | (k, v) :: rest, q => if k = q then some v else lookupStr rest q

def insertStr (k v : String) (m : StrMap) : StrMap := (k, v) :: m

/-- `net.JoinHostPort` for IPv4 hosts. -/
def joinHostPort (host port : String) : String := host ++ ":" ++ port

/-- `ContainerInfo` as returned by `client.ContainerStart`: id, internal IP,
the started container's `PortMap`, and per-network endpoint settings
(`Networks map[string]EndpointSettings` reduced to the `IPAddress` field). -/
structure ContainerInfo where
  id : String
  ipAddress : String
  portBinds : List (String × List PortBinding)
  networks : StrMap
  deriving DecidableEq, Repr

/-- `OrchestratorInfo` from `types.go` (field spellings follow the source). -/
structure OrchestratorInfo where
  id : String
  typeID : Nat
  containerEnpoints : StrMap
  hostEnpoints : StrMap
  deriving DecidableEq, Repr

/-- The immutable-per-call configuration of one `BaseContainer`. -/
structure ContainerCfg where
  name : String
  containerID : String
  typeID : Nat
  networkName : String
  hostIP : String
  ports : List PortBind
  portnames : StrMap
  background : Bool
  deriving DecidableEq, Repr

/-- The lock-guarded stop state of a `BaseContainer` plus the observable record
of `client.ContainerStop` invocations (each entry is the grace period passed). -/
structure StopState where
  stopped : Bool
  engineStopGraces : List Nat
  deriving DecidableEq, Repr

/-- Observable controller state touched by `StartContainer`. -/
structure ContState where
  hostAddress : StrMap
  containerAddress : StrMap
  containerIP : String
  registered : List OrchestratorInfo
  logStreamStarted : Bool
  exitWaitStarted : Bool
  readyClosedCount : Nat
  stop : StopState
  deriving DecidableEq, Repr

/-- The state of a freshly constructed `BaseContainer` (`NewBaseContainer`):
empty endpoint maps, no registrations, no tasks, not stopped. -/
def initialContState : ContState :=
  { hostAddress := [], containerAddress := [], containerIP := "",
    registered := [], logStreamStarted := false, exitWaitStarted := false,
    readyClosedCount := 0,
    stop := { stopped := false, engineStopGraces := [] } }

/-- `BaseContainer.Stop`: under the lock, a set `stopped` flag fails fast with
the "already stopped" error; otherwise the flag is set and the engine's
`ContainerStop` is invoked with grace `time.Duration(0)`, returning its
result (`engineStop` is that result). -/
def Stop (engineStop : Option GoError) (cfg : ContainerCfg) (st : StopState) :
    Option GoError × StopState :=
  if st.stopped then
    (some (.withCtx [("container-id", cfg.containerID), ("container-name", cfg.name)]
      (.const "container already stopped")), st)
  else
    (engineStop, { stopped := true, engineStopGraces := st.engineStopGraces ++ [0] })

/-- A sequence of `Stop` calls on one controller; `eng n` is the engine's
result for its `n`-th `ContainerStop` invocation. -/
def stopN (eng : Nat → Option GoError) (cfg : ContainerCfg) :
    Nat → StopState → List (Option GoError) × StopState
  | 0, st => ([], st)
  | k + 1, st =>
    ((Stop (eng st.engineStopGraces.length) cfg st).1 ::
        (stopN eng cfg k (Stop (eng st.engineStopGraces.length) cfg st).2).1,
      (stopN eng cfg k (Stop (eng st.engineStopGraces.length) cfg st).2).2)

/-- What `client.ContainerWait` can deliver first: a value on the error channel
or a `ContainerStatus{StatusCode, Error}` on the status channel. -/
inductive WaitEvent where
  | errCh (e : GoError)
  | waitCh (statusCode : Int) (statusErr : Option GoError)
  deriving DecidableEq, Repr

/-- `BaseContainer.wait`'s goroutine: the value sent on the exit channel.  On
the error-channel branch a context-wrapped error is sent; on the status branch
the status (and its error, if any) is only logged and `nil` is sent. -/
def waitDeliver (name : String) : WaitEvent → Option GoError
  | .errCh e => some (.withCtx [("container-name", name)]
      (.wrap "container process exited with error" e))
  | .waitCh _ _ => none

/-- Whether `BaseContainer.wait` logs to the error stream rather than stdout:
only when the status-channel value carries a non-nil `Error`. -/
def waitLogsErrorStream : WaitEvent → Bool
  | .errCh _ => false
  | .waitCh _ se => se.isSome

/-- A clean exit in the claim's sense: status channel, code 0, no error. -/
def cleanExit : WaitEvent → Prop
  | .errCh _ => False
  | .waitCh c se => c = 0 ∧ se = none

/-- `BaseContainer.ready`'s constant delay (`time.Second * 5`), in seconds. -/
def defaultReadyDelay : Nat := 5

/-- `BaseContainer.ready`'s goroutine: a select racing `ctx.Done()` against
`time.After(5s)`; `cancelAt` is the context's cancellation time in seconds
(`none` = never cancelled).  Returns whether `readyCh` is ever closed.  A tie
(`cancelAt = 5`) is nondeterministic in Go's select; the model resolves it in
favour of the timer, and no theorem below depends on the tie. -/
def readyCloses (cancelAt : Option Nat) : Bool :=
  match cancelAt with
  | some t => if t < defaultReadyDelay then false else true
  | none => true

/-- `strconv.Atoi` on a 64-bit platform (`ParseInt(s, 10, 0)` with `int` =
int64): optional sign, then one or more decimal digits, and the value must fit
int64 — a syntactically valid but out-of-range string yields `ErrRange`, which
the caller sees as a non-nil error exactly like a syntax error.  `none` covers
both failure kinds. -/
def goAtoi (s : String) : Option Int :=
  match s.toList with
  | [] => none
  | c :: rest =>
    let digits := if c = '-' ∨ c = '+' then rest else c :: rest
    if digits = [] then none
    else if digits.all Char.isDigit then
      let v : Int :=
        if c = '-' then -((digits.foldl (fun a d => a * 10 + (d.toNat - 48)) 0 : Nat) : Int)
        else ((digits.foldl (fun a d => a * 10 + (d.toNat - 48)) 0 : Nat) : Int)
      if -(2 ^ 63) ≤ v ∧ v ≤ 2 ^ 63 - 1 then some v else none
    else none

/-- Two's-complement wrap into int64, as Go's fixed-width arithmetic does. -/
def wrapInt64 (v : Int) : Int :=
  (v + 2 ^ 63) % 2 ^ 64 - 2 ^ 63

/-- The debug-port configuration (`ports.DebugPort`): whether enabled, the
container-side port, and the user command it wraps. -/
structure DebugPortCfg where
  enabled : Bool
  port : Nat
  command : String
  deriving DecidableEq, Repr

/-- The fields of `BaseContainer` that `setupDebug` can touch, plus the
observable "wrong factor" log flag. -/
structure DebugSetupState where
  ports : List PortBind
  cmd : List String
  startTimeout : Int
  loggedWrongFactor : Bool
  deriving DecidableEq, Repr

/-- `BaseContainer.setupDebug`.  The external `ports`-package constants
(`ports.DebugPortName`, `ports.BaseDebugPort`) are parameters; `envFactor` is
`os.Getenv(StartTimeoutFactorEnvar)`, the empty string when unset.
`StartTimeout` is a `time.Duration` (int64), so the factor multiplication
wraps as int64 arithmetic. -/
def setupDebug (debugPortName : String) (baseDebugPort : Nat) (envFactor : String)
    (dp : DebugPortCfg) (st : DebugSetupState) : DebugSetupState :=
  if dp.enabled then
    let st1 := { st with ports := st.ports ++
      [({ name := debugPortName,
          container := toString dp.port ++ "/tcp",
          host := baseDebugPort } : PortBind)] }
    let st2 :=
      if envFactor ≠ "" then
        match goAtoi envFactor with
        | none => { st1 with loggedWrongFactor := true }
        | some f => { st1 with startTimeout := wrapInt64 (st1.startTimeout * f) }
      else st1
    { st2 with cmd :=
        ["/bin/dlv", "--listen=:" ++ toString baseDebugPort, "--headless=true",
         "--api-version=2", "--accept-multiclient", "exec", dp.command] }
  else st

/-- The host-endpoint fill loop of `StartContainer`: for each port-map entry
with a non-empty binding list, the first binding's host port is resolved
through `portnames` (missing keys give Go's zero value `""`) and recorded. -/
def fillHostAddrs (portnames : StrMap) (hostIP : String) (addr : StrMap) :
    List (String × List PortBinding) → StrMap
  | [] => addr
  | (_, binds) :: rest =>
    match binds with
    | [] => fillHostAddrs portnames hostIP addr rest
    | b :: _ =>
      fillHostAddrs portnames hostIP
        (insertStr ((lookupStr portnames b.hostPort).getD "")
          (joinHostPort hostIP b.hostPort) addr) rest

/-- The container-endpoint fill loop of `StartContainer`. -/
def fillContainerAddrs (containerIP : String) (addr : StrMap) :
    List PortBind → StrMap
  | [] => addr
  | p :: rest =>
    fillContainerAddrs containerIP
      (insertStr p.name (joinHostPort containerIP (portOf p.container)) addr) rest

/-- Which of the three select arms of the startup race resolves first
(the claims below each fix a unique winner). -/
inductive RaceEvent where
  | deadline
  | exited
  | ready
  deriving DecidableEq, Repr

/-- What ends the post-ready run loop in non-background mode: a value on the
exit channel, or an external stop signal. -/
inductive RunEvent where
  | exitDelivered (e : Option GoError)
  | signal
  deriving DecidableEq, Repr

/-- `BaseContainer.StartContainer`.  `engineStart` is the outcome of
`client.ContainerStart`; `engineStop` the engine's result should
`ContainerStop` be invoked; `race` the winner of the startup select; `run` the
event ending the non-background run loop; `hasReadyCh` whether the optional
ready-notification channel was supplied.  The deadline branch's
`c.containerID[:12]` is modelled with `String.take` (Go would panic on a
shorter id; no claim exercises that). -/
def StartContainer (cfg : ContainerCfg) (engineStart : Except GoError ContainerInfo)
    (engineStop : Option GoError) (race : RaceEvent) (run : RunEvent)
    (hasReadyCh : Bool) (st : ContState) : Option GoError × ContState :=
  match engineStart with
  | .error e => (some (.wrap "start container" e), st)
  | .ok info =>
    let hostAddr := fillHostAddrs cfg.portnames cfg.hostIP st.hostAddress info.portBinds
    let cip :=
      if info.ipAddress = "" then
        match lookupStr info.networks cfg.networkName with
        | some a => a
        | none => info.ipAddress
      else info.ipAddress
    let contAddr := fillContainerAddrs cip st.containerAddress cfg.ports
    let st1 : ContState := { st with
      hostAddress := hostAddr,
      containerAddress := contAddr,
      containerIP := cip,
      logStreamStarted := true,
      registered := st.registered ++
        [{ id := info.id, typeID := cfg.typeID,
           containerEnpoints := contAddr, hostEnpoints := hostAddr }],
      exitWaitStarted := true }
    match race with
    | .deadline =>
      (some (.withCtx
          [("container-name", cfg.name), ("container-id", cfg.containerID.take 12)]
          (.const "container did not start")),
        { st1 with stop := (Stop engineStop cfg st1.stop).2 })
    | .exited => (some (.const "container exited before ready"), st1)
    | .ready =>
      let st2 :=
        if hasReadyCh then { st1 with readyClosedCount := st1.readyClosedCount + 1 }
        else st1
      if cfg.background then (none, st2)
      else
        match run with
        | .exitDelivered e => (e, st2)
        | .signal =>
          ((Stop engineStop cfg st2.stop).1, { st2 with stop := (Stop engineStop cfg st2.stop).2 })

/-! ### Claim theorems for the lifecycle controller -/

theorem stopN_after_stopped (eng : Nat → Option GoError) (cfg : ContainerCfg) (k : Nat) :
    ∀ (st : StopState), st.stopped = true →
    stopN eng cfg k st =
      (List.replicate k (some (.withCtx
          [("container-id", cfg.containerID), ("container-name", cfg.name)]
          (.const "container already stopped"))), st) := by
  induction k with
  | zero => intro st h; rfl
  | succ n ih =>
    intro st h
    simp only [stopN, Stop, h, if_true, List.replicate_succ]
    rw [ih st h]

/-- C2: for every controller, the first `Stop()` call invokes the engine's
`ContainerStop` with a zero grace period and returns its result; every later
call returns the "already stopped" error without touching the engine; across
`k + 1` calls the engine is invoked exactly once (one recorded grace, 0). -/
theorem C2_stop_idempotent (eng : Nat → Option GoError) (cfg : ContainerCfg) (k : Nat) :
    stopN eng cfg (k + 1) { stopped := false, engineStopGraces := [] } =
      (eng 0 :: List.replicate k (some (.withCtx
          [("container-id", cfg.containerID), ("container-name", cfg.name)]
          (.const "container already stopped"))),
        { stopped := true, engineStopGraces := [0] }) := by
  have h1 : Stop (eng 0) cfg { stopped := false, engineStopGraces := [] } =
      (eng 0, { stopped := true, engineStopGraces := [0] }) := rfl
  simp only [stopN]
  rw [show (({ stopped := false, engineStopGraces := [] } : StopState)).engineStopGraces.length
      = 0 from rfl, h1]
  rw [stopN_after_stopped eng cfg k _ rfl]

/-- C3 (counterexample): a container exiting with status code 1 (a non-clean
exit) still gets `nil` delivered on the exit channel — the claimed equivalence
"nil iff clean exit" fails. -/
theorem C3_counterexample :
    ¬ ((waitDeliver "c" (.waitCh 1 none) = none) ↔ cleanExit (.waitCh 1 none)) := by
  intro h
  have h2 := h.mp rfl
  exact absurd h2.1 (by norm_num)

/-- C3 (amended): the exit-wait task delivers `nil` for every status-channel
outcome, whatever the status code or status error (those are only logged), and
delivers a context-wrapped error exactly for an error-channel outcome. -/
theorem C3_wait_delivery (name : String) :
    (∀ c se, waitDeliver name (.waitCh c se) = none) ∧
    (∀ e, waitDeliver name (.errCh e) =
      some (.withCtx [("container-name", name)]
        (.wrap "container process exited with error" e))) ∧
    (∀ c se, waitLogsErrorStream (.waitCh c se) = se.isSome) :=
  ⟨fun _ _ => rfl, fun _ => rfl, fun _ _ => rfl⟩

/-- C4: if the start deadline elapses first, `StartContainer` performs the
stop cleanup — on a not-yet-stopped controller the engine's stop is invoked
exactly once, with zero grace — and returns the "did not start" error carrying
the container name and the first 12 characters of the container id. -/
theorem C4_deadline_cleanup (cfg : ContainerCfg) (info : ContainerInfo)
    (engineStop : Option GoError) (run : RunEvent) (hasReadyCh : Bool) (st : ContState)
    (hstop : st.stop.stopped = false) (hgr : st.stop.engineStopGraces = []) :
    (StartContainer cfg (.ok info) engineStop .deadline run hasReadyCh st).1 =
      some (.withCtx
        [("container-name", cfg.name), ("container-id", cfg.containerID.take 12)]
        (.const "container did not start")) ∧
    (StartContainer cfg (.ok info) engineStop .deadline run hasReadyCh st).2.stop =
      { stopped := true, engineStopGraces := [0] } := by
  constructor
  · rfl
  · show (Stop engineStop cfg st.stop).2 = _
    simp only [Stop, hstop, hgr]
    rfl

/-- C4 (witness): the theorem at a concrete controller with a 16-character id. -/
theorem C4_witness :
    (StartContainer
        { name := "comp", containerID := "0123456789abcdef", typeID := 0,
          networkName := "nw", hostIP := "127.0.0.1", ports := [], portnames := [],
          background := false }
        (.ok { id := "cid", ipAddress := "", portBinds := [], networks := [] })
        none .deadline .signal true initialContState).1 =
      some (.withCtx
        [("container-name", "comp"),
         ("container-id", (("0123456789abcdef" : String)).take 12)]
        (.const "container did not start")) ∧
    (StartContainer
        { name := "comp", containerID := "0123456789abcdef", typeID := 0,
          networkName := "nw", hostIP := "127.0.0.1", ports := [], portnames := [],
          background := false }
        (.ok { id := "cid", ipAddress := "", portBinds := [], networks := [] })
        none .deadline .signal true initialContState).2.stop =
      { stopped := true, engineStopGraces := [0] } :=
  C4_deadline_cleanup
    { name := "comp", containerID := "0123456789abcdef", typeID := 0,
      networkName := "nw", hostIP := "127.0.0.1", ports := [], portnames := [],
      background := false }
    { id := "cid", ipAddress := "", portBinds := [], networks := [] }
    none .signal true initialContState rfl rfl

/-- C7: if the readiness signal wins the startup race, the supplied
ready-notification channel is closed exactly once (one increment of the close
count over the whole call), and — in background mode, where the call returns
at that point — `StartContainer` returns success (`nil`). -/
theorem C7_ready_success (cfg : ContainerCfg) (info : ContainerInfo)
    (engineStop : Option GoError) (run : RunEvent) (st : ContState) :
    (StartContainer cfg (.ok info) engineStop .ready run true st).2.readyClosedCount =
      st.readyClosedCount + 1 ∧
    (cfg.background = true →
      (StartContainer cfg (.ok info) engineStop .ready run true st).1 = none) := by
  constructor
  · cases hbg : cfg.background with
    | true =>
      simp only [StartContainer, hbg, if_true]
    | false =>
      simp only [StartContainer, hbg]
      cases run with
      | exitDelivered e => rfl
      | signal => rfl
  · intro hbg
    simp only [StartContainer, hbg]
    rfl

/-- C7 (witness): the theorem at a concrete background-mode controller. -/
theorem C7_witness :
    (StartContainer
        { name := "comp", containerID := "0123456789abcdef", typeID := 0,
          networkName := "nw", hostIP := "127.0.0.1", ports := [], portnames := [],
          background := true }
        (.ok { id := "cid", ipAddress := "1.2.3.4", portBinds := [], networks := [] })
        none .ready .signal true initialContState).2.readyClosedCount =
      initialContState.readyClosedCount + 1 ∧
    (({ name := "comp", containerID := "0123456789abcdef", typeID := 0,
        networkName := "nw", hostIP := "127.0.0.1", ports := [], portnames := [],
        background := true } : ContainerCfg).background = true →
      (StartContainer
        { name := "comp", containerID := "0123456789abcdef", typeID := 0,
          networkName := "nw", hostIP := "127.0.0.1", ports := [], portnames := [],
          background := true }
        (.ok { id := "cid", ipAddress := "1.2.3.4", portBinds := [], networks := [] })
        none .ready .signal true initialContState).1 = none) :=
  C7_ready_success
    { name := "comp", containerID := "0123456789abcdef", typeID := 0,
      networkName := "nw", hostIP := "127.0.0.1", ports := [], portnames := [],
      background := true }
    { id := "cid", ipAddress := "1.2.3.4", portBinds := [], networks := [] }
    none .signal initialContState

/-- C8: with a debug port enabled, `setupDebug` appends exactly one port
binding — named by the debug-port name, at the configured base debug host
port — and replaces the command with the fixed 7-token `dlv` wrapper whose
last token is the user command; a set but unparsable scale factor — including
a syntactically valid value outside the int64 range, which `strconv.Atoi`
rejects with `ErrRange` — is logged and ignored (the timeout is unchanged and
the function still completes), and a parsable factor multiplies the start
timeout, with int64 (`time.Duration`) wrapping. -/
theorem C8_debug_augmentation (dbgName : String) (basePort : Nat) (envFactor : String)
    (dp : DebugPortCfg) (st : DebugSetupState) (hen : dp.enabled = true) :
    (setupDebug dbgName basePort envFactor dp st).ports =
      st.ports ++ [{ name := dbgName, container := toString dp.port ++ "/tcp", host := basePort }] ∧
    (setupDebug dbgName basePort envFactor dp st).cmd =
      ["/bin/dlv", "--listen=:" ++ toString basePort, "--headless=true",
       "--api-version=2", "--accept-multiclient", "exec", dp.command] ∧
    (setupDebug dbgName basePort envFactor dp st).cmd.length = 7 ∧
    (setupDebug dbgName basePort envFactor dp st).cmd.getLast? = some dp.command ∧
    (envFactor ≠ "" → goAtoi envFactor = none →
      (setupDebug dbgName basePort envFactor dp st).startTimeout = st.startTimeout ∧
      (setupDebug dbgName basePort envFactor dp st).loggedWrongFactor = true) ∧
    (∀ f, goAtoi envFactor = some f →
      (setupDebug dbgName basePort envFactor dp st).startTimeout =
        wrapInt64 (st.startTimeout * f)) ∧
    (envFactor = "" →
      (setupDebug dbgName basePort envFactor dp st).startTimeout = st.startTimeout) := by
  by_cases he : envFactor = ""
  · subst he
    refine ⟨?_, ?_, ?_, ?_, ?_, ?_, ?_⟩ <;>
      simp [setupDebug, hen, goAtoi]
  · cases hg : goAtoi envFactor with
    | none =>
      refine ⟨?_, ?_, ?_, ?_, ?_, ?_, ?_⟩ <;>
        simp [setupDebug, hen, he, hg]
    | some f =>
      refine ⟨?_, ?_, ?_, ?_, ?_, ?_, ?_⟩ <;>
        simp [setupDebug, hen, he, hg]

/-- C8 (witness): debug port 4000, command `/app`, base debug port 40000,
scale factor `"3"`. -/
theorem C8_witness :
    (setupDebug "debug" 40000 "3" { enabled := true, port := 4000, command := "/app" }
        { ports := [], cmd := [], startTimeout := 60, loggedWrongFactor := false }).ports =
      [] ++ [{ name := "debug", container := toString (({ enabled := true, port := 4000, command := "/app" } : DebugPortCfg)).port ++ "/tcp", host := 40000 }] ∧
    (setupDebug "debug" 40000 "3" { enabled := true, port := 4000, command := "/app" }
        { ports := [], cmd := [], startTimeout := 60, loggedWrongFactor := false }).cmd =
      ["/bin/dlv", "--listen=:" ++ toString 40000, "--headless=true",
       "--api-version=2", "--accept-multiclient", "exec", "/app"] ∧
    (setupDebug "debug" 40000 "3" { enabled := true, port := 4000, command := "/app" }
        { ports := [], cmd := [], startTimeout := 60, loggedWrongFactor := false }).cmd.length = 7 ∧
    (setupDebug "debug" 40000 "3" { enabled := true, port := 4000, command := "/app" }
        { ports := [], cmd := [], startTimeout := 60, loggedWrongFactor := false }).cmd.getLast? =
      some "/app" ∧
    (("3" : String) ≠ "" → goAtoi "3" = none →
      (setupDebug "debug" 40000 "3" { enabled := true, port := 4000, command := "/app" }
        { ports := [], cmd := [], startTimeout := 60, loggedWrongFactor := false }).startTimeout = 60 ∧
      (setupDebug "debug" 40000 "3" { enabled := true, port := 4000, command := "/app" }
        { ports := [], cmd := [], startTimeout := 60, loggedWrongFactor := false }).loggedWrongFactor = true) ∧
    (∀ f, goAtoi "3" = some f →
      (setupDebug "debug" 40000 "3" { enabled := true, port := 4000, command := "/app" }
        { ports := [], cmd := [], startTimeout := 60, loggedWrongFactor := false }).startTimeout =
          wrapInt64 (60 * f)) ∧
    (("3" : String) = "" →
      (setupDebug "debug" 40000 "3" { enabled := true, port := 4000, command := "/app" }
        { ports := [], cmd := [], startTimeout := 60, loggedWrongFactor := false }).startTimeout = 60) :=
  C8_debug_augmentation "debug" 40000 "3"
    { enabled := true, port := 4000, command := "/app" }
    { ports := [], cmd := [], startTimeout := 60, loggedWrongFactor := false } rfl

/-- C9: the default readiness probe resolves after the constant 5-second delay
when never cancelled, and if its context is cancelled before the delay
elapses, the signal channel is never closed. -/
theorem C9_default_ready (t : Nat) (h : t < defaultReadyDelay) :
    readyCloses (some t) = false ∧ readyCloses none = true ∧ defaultReadyDelay = 5 := by
  refine ⟨?_, rfl, rfl⟩
  simp [readyCloses, h]

/-- C9 (witness): cancellation at 3 seconds. -/
theorem C9_witness :
    readyCloses (some 3) = false ∧ readyCloses none = true ∧ defaultReadyDelay = 5 :=
  C9_default_ready 3 (by decide)

/-- C10: when the engine's container-start call fails, `StartContainer`
returns the wrapped error immediately and the controller state is exactly the
input state — endpoint maps, container IP, network registrations, task flags,
ready-close count and the stop state are all unchanged. -/
theorem C10_start_error_frame (cfg : ContainerCfg) (e : GoError)
    (engineStop : Option GoError) (race : RaceEvent) (run : RunEvent)
    (hasReadyCh : Bool) (st : ContState) :
    StartContainer cfg (.error e) engineStop race run hasReadyCh st =
      (some (.wrap "start container" e), st) := rfl

end Containers
